import Mathlib

/-!
Verification of the tg-crm Telegram bot (`bot.py`).

The bot long-polls Telegram `getUpdates`, classifies each incoming message
(`/start`, phone-like text, email-like text, unrecognized), looks buyers up in
the KeyCRM API with phone-format fallbacks, formats a reply, sends it, and
best-effort appends an audit line to the first matched buyer's note.

Strings are modelled as `List Char` (`Str`); Python string literals appear as
`"...".data`.  JSON payloads are modelled as structures whose optional fields
are `Option`-typed, mirroring `dict.get`.  Python truthiness (`or`, `if x:`)
is modelled explicitly: an absent value and an empty string/list/dict behave
alike.  Ambient process state read inside functions (the `KEYCRM_TOKEN`
environment variable, `time.strftime`) is passed explicitly as configuration.
Network I/O is modelled by oracles: the CRM fetch is a function from
(filter field, value) to `Option CrmResp`, where `none` stands for any
swallowed failure (network error, non-2xx, malformed payload); a raising
Telegram `sendMessage` is modelled by a predicate saying whose update's reply
raises (`_call_api` re-raises, which aborts the `for` loop over the batch).
-/

abbrev Str := List Char

/-- ASCII whitespace as recognized by Python `str.strip()` / `\s`
(the model covers the six ASCII whitespace characters). -/
def wsChar (c : Char) : Bool :=
  c == ' ' || c == '\t' || c == '\n' || c == '\r' || c == '\x0b' || c == '\x0c'

/-- Python `s.strip()`: drop leading and trailing whitespace. -/
def pyStrip (s : Str) : Str :=
  ((s.dropWhile wsChar).reverse.dropWhile wsChar).reverse

/-- Python `s.startswith(pat)`. -/
def listStartsWith : Str → Str → Bool
  | [], _ => true
  | _ :: _, [] => false
  | p :: ps, c :: cs => p == c && listStartsWith ps cs

/-- Python `"x" in s` (substring test). -/
def listContainsSub : Str → Str → Bool
  | pat, [] => pat.isEmpty
  | pat, c :: rest => listStartsWith pat (c :: rest) || listContainsSub pat rest

/-- Python `s.endswith(pat)`. -/
def listEndsWith (pat s : Str) : Bool := listStartsWith pat.reverse s.reverse

/-- Python truthiness-based `a or b` for an optional string coming from
`dict.get` (both `None` and `""` fall through to `b`). -/
def pyOrS (a : Option Str) (b : Str) : Str :=
  match a with
  | some s => if s.isEmpty then b else s
  | none => b

/-- Decimal digit value of an ASCII digit character. -/
def digitVal (c : Char) : Nat := c.toNat - 48

/-- Continuation of Python `int()` decimal parsing after the first digit:
single underscores are allowed between digits, nothing else. -/
def intDigitsTail : Str → Nat → Option Nat
  | [], acc => some acc
  | ['_'], _ => none
  | '_' :: d :: ds, acc =>
      if d.isDigit then intDigitsTail ds (acc * 10 + digitVal d) else none
  | c :: cs, acc =>
      if c.isDigit then intDigitsTail cs (acc * 10 + digitVal c) else none

/-- Python `int()` on a string of ASCII digits (no sign): first char must be a
digit, then `intDigitsTail`. -/
def intDigitsStart : Str → Option Nat
  | [] => none
  | c :: cs => if c.isDigit then intDigitsTail cs (digitVal c) else none

/-- Python `int(part)` for an already-stripped decimal token: optional single
sign, then digits with optional single underscores between them.  (The model
covers ASCII decimal literals, the only integers the allow-list uses.) -/
def pyInt (s : Str) : Option Int :=
  match s with
  | '+' :: rest => (intDigitsStart rest).map (fun n => (n : Int))
  | '-' :: rest => (intDigitsStart rest).map (fun n => -(n : Int))
  | _ => (intDigitsStart s).map (fun n => (n : Int))

/-- Python `raw.split(",")`. -/
def splitComma : Str → List Str
  | [] => [[]]
  | c :: rest =>
    match splitComma rest with
    | [] => [[c]]
    | s :: ss => if c == ',' then [] :: s :: ss else (c :: s) :: ss

/-- `_allowed_chat_ids` (bot.py:57-68): split `ALLOWED_CHAT_IDS` on commas,
strip each part, skip empty parts, collect the parts `int()` accepts and
silently skip the rest.  The Python `set` is modelled as a list; only
membership is ever used. -/
def allowed_chat_ids (raw : Str) : List Int :=
  (splitComma raw).filterMap (fun part =>
    let part := pyStrip part
    if part.isEmpty then none else pyInt part)

/-- Digits extracted by `re.sub(r"\D", "", raw)` (bot.py:303). -/
def pyDigits (raw : Str) : Str := raw.filter Char.isDigit

/-- `_normalize_phone` (bot.py:301-312): strip non-digits, then match the
digit string's shape and return `+380XXXXXXXXX`, else `None`. -/
def normalize_phone (raw : Str) : Option Str :=
  if (pyDigits raw).length == 12 && listStartsWith ("380".data) (pyDigits raw) then
    some ('+' :: pyDigits raw)
  else if (pyDigits raw).length == 10 && listStartsWith ("0".data) (pyDigits raw) then
    some ("+380".data ++ (pyDigits raw).drop 1)
  else if (pyDigits raw).length == 9 then
    some ("+380".data ++ pyDigits raw)
  else if (pyDigits raw).length == 11 && listStartsWith ("80".data) (pyDigits raw) then
    some ("+3".data ++ pyDigits raw)
  else none

/-- The shape condition under which `_normalize_phone` succeeds, read off the
source's four guards. -/
def normalizable_shape (ds : Str) : Bool :=
  (ds.length == 12 && listStartsWith ("380".data) ds)
  || (ds.length == 10 && listStartsWith ("0".data) ds)
  || ds.length == 9
  || (ds.length == 11 && listStartsWith ("80".data) ds)

/-- The shape condition as the claim C4 words it: the 9-digit case demands
no leading zero and no country code.  Stated only to refute the claim. -/
def claim_shape_c4 (ds : Str) : Bool :=
  (ds.length == 12 && listStartsWith ("380".data) ds)
  || (ds.length == 10 && listStartsWith ("0".data) ds)
  || (ds.length == 9 && !(listStartsWith ("0".data) ds)
        && !(listStartsWith ("380".data) ds))
  || (ds.length == 11 && listStartsWith ("80".data) ds)

/-- The `^[^@\s]+@[^@\s]+\.[^@\s]+$` test of `_normalize_email` (bot.py:317):
the string splits at its unique `@` into a nonempty local part and a nonempty
domain, with no whitespace, and the domain contains a dot that is neither its
first nor its last character. -/
def email_regex_match (s : Str) : Bool :=
  let local_part := s.takeWhile (fun c => c != '@')
  match s.dropWhile (fun c => c != '@') with
  | '@' :: domain =>
      !local_part.isEmpty && local_part.all (fun c => !(wsChar c))
      && !domain.isEmpty && domain.all (fun c => c != '@' && !(wsChar c))
      && ((domain.drop 1).dropLast).contains '.'
  | _ => false

/-- `_normalize_email` (bot.py:315-319): strip, test the regex, lowercase. -/
def normalize_email (raw : Str) : Option Str :=
  let candidate := pyStrip raw
  if email_regex_match candidate then some (candidate.map Char.toLower) else none

/-! ### CRM data model (KeyCRM buyer payload as read by `bot.py`) -/

structure Manager where
  name : Option Str
  full_name : Option Str
  deriving DecidableEq

structure Company where
  name : Option Str
  deriving DecidableEq

structure Shipping where
  address : Option Str
  additional_address : Option Str
  city : Option Str
  region : Option Str
  zip_code : Option Str
  country : Option Str
  deriving DecidableEq

/-- A custom-field `value` is either a string or a list (of stringified
items); `bot.py` joins a list with `", "`. -/
inductive CFValue where
  | s (v : Str)
  | l (vs : List Str)
  deriving DecidableEq

structure CustomField where
  uuid : Option Str
  value : Option CFValue
  deriving DecidableEq

structure Buyer where
  id : Option Nat
  full_name : Option Str
  name : Option Str
  manager : Option Manager
  email : Option (List Str)
  phone : Option (List Str)
  birthday : Option Str
  company : Option Company
  shipping : Option (List Shipping)
  custom_fields : Option (List CustomField)
  note : Option Str
  deriving DecidableEq

def emptyBuyer : Buyer :=
  ⟨none, none, none, none, none, none, none, none, none, none, none⟩

/-- The JSON body of a successful KeyCRM buyer-search response, as read via
`result.get("data")` / `result.get("total", 0)`. -/
structure CrmResp where
  data : Option (List Buyer)
  total : Option Nat
  deriving DecidableEq

/-! ### Telegram data model (fields of an update that `main` reads) -/

structure Chat where
  id : Option Int
  deriving DecidableEq

structure Message where
  text : Option Str
  chat : Option Chat
  deriving DecidableEq

structure Update where
  update_id : Option Int
  message : Option Message
  deriving DecidableEq

def emptyChat : Chat := ⟨none⟩
def emptyMessage : Message := ⟨none, none⟩

/-- Process-wide configuration and external-world oracles: the allow-list
(from `ALLOWED_CHAT_IDS`), whether `KEYCRM_TOKEN` is set, the CRM answer to a
GET with a given filter field and value (`none` = any swallowed failure), and
the `time.strftime` timestamp used by the note updater. -/
structure LoopCfg where
  allowed : List Int
  tokenCfg : Bool
  crm : Str → Str → Option CrmResp
  now : Str

/-- `_fetch_keycrm` (bot.py:140-176): `None` without a token, else the
network result (`none` models the broad `except` returning `None`). -/
def fetch_keycrm (cfg : LoopCfg) (filter_field value : Str) : Option CrmResp :=
  if cfg.tokenCfg then cfg.crm filter_field value else none

/-- `_lookup_buyers` (bot.py:179-185): a failed fetch is reported as
`([], 0)`; otherwise `data or []` and `get("total", 0)`. -/
def lookup_buyers (cfg : LoopCfg) (filter_field value : Str) : List Buyer × Nat :=
  match fetch_keycrm cfg filter_field value with
  | none => ([], 0)
  | some result => (result.data.getD [], result.total.getD 0)

/-- `", ".join([v for v in values if v])` (`_join`, bot.py:194-195). -/
def pyJoin (values : List Str) : Str :=
  List.intercalate (", ".data) (values.filter (fun v => !v.isEmpty))

/-- `_format_shipping` (bot.py:197-211): first 3 shipping items; pack the
truthy parts with `", "`; keep nonempty packs prefixed `Адреса: `. -/
def format_shipping (shipping : List Shipping) : List Str :=
  (shipping.take 3).filterMap (fun item =>
    let parts := [item.address, item.additional_address, item.city,
                  item.region, item.zip_code, item.country]
    let packed := List.intercalate (", ".data)
      (parts.filterMap (fun p => match p with
        | some v => if v.isEmpty then none else some v
        | none => none))
    if packed.isEmpty then none else some ("Адреса: ".data ++ packed))

/-- Rendering of one custom-field value (a list is joined with `", "`). -/
def cfValueStr : CFValue → Str
  | .s v => v
  | .l vs => List.intercalate (", ".data) vs

/-- Python truthiness of a custom-field value. -/
def cfTruthy : CFValue → Bool
  | .s v => !v.isEmpty
  | .l vs => !vs.isEmpty

/-- `_format_custom_fields` (bot.py:213-222): one `uuid: value` line per
truthy value, first 5 lines kept. -/
def format_custom_fields (custom_fields : List CustomField) : List Str :=
  (custom_fields.filterMap (fun cf =>
    let uuid := pyOrS cf.uuid ("поле".data)
    match cf.value with
    | some v => if cfTruthy v then some (uuid ++ ": ".data ++ cfValueStr v) else none
    | none => none)).take 5

/-- Decimal rendering of a `Nat`, as Python's f-string does. -/
def natStr (n : Nat) : Str := (Nat.repr n).data

/-- The detail block of one buyer (body of the `for idx, buyer in
enumerate(buyers[:5], start=1)` loop, bot.py:227-264). -/
def buyer_block (idx : Nat) (buyer : Buyer) : List Str :=
  let name := pyOrS buyer.full_name (pyOrS buyer.name ("Без імені".data))
  let manager := buyer.manager.getD ⟨none, none⟩
  let manager_name := pyOrS manager.name (pyOrS manager.full_name ("не призначений".data))
  let emails := pyJoin (buyer.email.getD [])
  let phones := pyJoin (buyer.phone.getD [])
  let birthday := buyer.birthday.getD []
  let company_name := (buyer.company.getD ⟨none⟩).name.getD []
  let cf_lines := format_custom_fields (buyer.custom_fields.getD [])
  [natStr idx ++ ". Клієнт: ".data ++ name,
   "   Менеджер: ".data ++ manager_name]
  ++ (if emails.isEmpty then [] else ["   E-mail: ".data ++ emails])
  ++ (if phones.isEmpty then [] else ["   Телефон(и): ".data ++ phones])
  ++ (if birthday.isEmpty then [] else ["   Дата народження: ".data ++ birthday])
  ++ (if company_name.isEmpty then [] else ["   Компанія: ".data ++ company_name])
  ++ (format_shipping (buyer.shipping.getD [])).map (fun addr => "   ".data ++ addr)
  ++ (if cf_lines.isEmpty then []
      else "   Кастомні поля:".data :: cf_lines.map (fun line => "   - ".data ++ line))

/-- The buyer blocks with indices counted from `start`. -/
def blocksFrom : Nat → List Buyer → List Str
  | _, [] => []
  | i, b :: rest => buyer_block i b ++ blocksFrom (i + 1) rest

/-- Header line `Знайдено {total} збіг(ів):` with Python's singular/plural
choice (bot.py:224-225). -/
def headerLine (total : Nat) : Str :=
  "Знайдено ".data ++ natStr total
    ++ (if total == 1 then " збіг".data else " збігів".data) ++ ":".data

def footerLine : Str := "Показані перші записи.".data

/-- The `lines` list built by `_format_crm_message` in the nonempty case
(bot.py:224-267): header, blocks for `buyers[:5]`, and the footer exactly
when `total > len(buyers)`. -/
def format_crm_lines (buyers : List Buyer) (total : Nat) : List Str :=
  headerLine total :: blocksFrom 1 (buyers.take 5)
    ++ (if buyers.length < total then [footerLine] else [])

/-- `_format_crm_message` (bot.py:188-269).  `tokenCfg` stands for the
`_get_keycrm_token()` read the source performs in the empty-result branch. -/
def format_crm_message (tokenCfg : Bool) (buyers : List Buyer) (total : Nat) : Str :=
  if buyers.isEmpty then
    if tokenCfg then "Номер не знайдено в системі.".data
    else "Перевірка номера в CRM недоступна зараз.".data
  else List.intercalate ("\n".data) (format_crm_lines buyers total)

/-- `_update_buyer_note_for_first` (bot.py:272-298), modelled as the PUT
payload it issues: `some (buyer_id, full_name, new_note)` when a request is
sent, `none` when the function returns early (no token, no buyers, falsy id).
`ts` is the `time.strftime` timestamp. -/
def update_buyer_note_for_first (tokenCfg : Bool) (buyers : List Buyer)
    (message ts : Str) : Option (Nat × Str × Str) :=
  if !tokenCfg then none
  else match buyers with
  | [] => none
  | buyer :: _ =>
    match buyer.id with
    | none => none
    | some buyer_id =>
      if buyer_id == 0 then none
      else
        let full_name := pyOrS buyer.full_name (pyOrS buyer.name ("Без імені".data))
        let existing_note := buyer.note.getD []
        let new_note :=
          pyStrip (existing_note ++ "\n[".data ++ ts ++ "] Bot: ".data ++ message)
        some (buyer_id, full_name, new_note)

/-- The `variants` list of `_lookup_phone_with_fallbacks` (bot.py:324-331):
the phone as given; `lstrip("+")` if that changes it; `+`-prepended if the
phone lacks a `+` but starts with `380`. -/
def phoneVariants (phone : Str) : List Str :=
  if phone.isEmpty then []
  else
    let plain := phone.dropWhile (fun c => c == '+')
    [phone]
    ++ (if plain != phone then [plain] else [])
    ++ (if !(listStartsWith ("+".data) phone) && listStartsWith ("380".data) phone
        then [('+' :: phone)] else [])

/-- The `for variant in variants` loop of `_lookup_phone_with_fallbacks`
(bot.py:333-337), instrumented with the list of variants actually queried:
query each in order, stop at the first non-zero total, else `([], 0)`. -/
def lookupVariantsRun (cfg : LoopCfg) : List Str → List Str × List Buyer × Nat
  | [] => ([], [], 0)
  | v :: rest =>
    let r := lookup_buyers cfg ("buyer_phone".data) v
    if r.2 != 0 then ([v], r.1, r.2)
    else
      let t := lookupVariantsRun cfg rest
      (v :: t.1, t.2.1, t.2.2)

/-- `_lookup_phone_with_fallbacks` (bot.py:322-337); `.1` is the list of
variants queried (instrumentation), `.2` the returned `(buyers, total)`. -/
def lookup_phone_with_fallbacks (cfg : LoopCfg) (phone : Str) :
    List Str × List Buyer × Nat :=
  lookupVariantsRun cfg (phoneVariants phone)

/-- The candidate-query list as claim C5 words it: the value as given; the
value with ONE leading `+` stripped, only if it had one; the value with `+`
prepended, only if it lacks a `+` and starts with `380`.  Stated for the
refinement proof. -/
def claim_candidates_c5 (v : Str) : List Str :=
  [v]
  ++ (if listStartsWith ("+".data) v then [v.drop 1] else [])
  ++ (if !(listStartsWith ("+".data) v) && listStartsWith ("380".data) v
      then [('+' :: v)] else [])

/-- Short-circuit evaluation of an ordered candidate list, as claim C5 words
it: the `(buyers, total)` of the first candidate with non-zero total, else
`([], 0)`. -/
def claim_run_c5 (cfg : LoopCfg) : List Str → List Buyer × Nat
  | [] => ([], 0)
  | v :: rest =>
    let r := lookup_buyers cfg ("buyer_phone".data) v
    if r.2 != 0 then r else claim_run_c5 cfg rest

/-! ### The update loop (`main`, bot.py:350-416) -/

/-- Events observable at the process boundary while handling one update:
a Telegram `sendMessage`, a CRM buyer-search call attempt, a CRM note PUT. -/
inductive BotEvent where
  | send (chat : Int) (text : Str)
  | crmGet (filter_field value : Str)
  | crmPut (buyer_id : Nat) (full_name note : Str)
  deriving DecidableEq

def isSend : BotEvent → Bool
  | .send _ _ => true
  | _ => false

/-- `message.get("text") or ""` on `update.get("message") or {}`. -/
def textOf (u : Update) : Str := ((u.message.getD emptyMessage).text).getD []

/-- `message.get("chat", {}).get("id")`. -/
def chatIdOf (u : Update) : Option Int :=
  ((u.message.getD emptyMessage).chat.getD emptyChat).id

/-- Python truthiness of `chat_id` (absent and `0` are both falsy). -/
def chatTruthy (u : Update) : Bool :=
  match chatIdOf u with
  | some c => c != 0
  | none => false

/-- The access gate `allowed_ids and chat_id and chat_id not in allowed_ids`
(bot.py:361). -/
def denies (cfg : LoopCfg) (u : Update) : Bool :=
  match chatIdOf u with
  | some c => !cfg.allowed.isEmpty && c != 0 && !cfg.allowed.contains c
  | none => false

/-- Note-update events after a reply: `if buyers:
_update_buyer_note_for_first(buyers, response_text)` (bot.py:380-381,392-393). -/
def noteEvents (cfg : LoopCfg) (buyers : List Buyer) (response_text : Str) :
    List BotEvent :=
  match update_buyer_note_for_first cfg.tokenCfg buyers response_text cfg.now with
  | some r => [.crmPut r.1 r.2.1 r.2.2]
  | none => []

/-- The body of `for update in updates` (bot.py:355-404) minus the offset
bookkeeping: the events emitted while handling one update.  A falsy chat id
fails every guard (denial, `/start`, the `elif`), so nothing is sent; one
`crmGet` is emitted per `_lookup_buyers` call attempt. -/
def handleUpdate (cfg : LoopCfg) (u : Update) : List BotEvent :=
  let text := textOf u
  match chatIdOf u with
  | none => []
  | some c =>
    if c == 0 then []
    else if denies cfg u then
      [.send c ("Доступ обмежено для цього бота.".data)]
    else if listStartsWith ("/start".data) text then
      [.send c ("Надішліть номер телефона чи емейл для ідентифікації клієнта.".data)]
    else if text.isEmpty then []
    else
      match normalize_phone text with
      | some normalized =>
        let r := lookup_phone_with_fallbacks cfg normalized
        let response_text :=
          "Дякуємо! Ми отримали ваш номер: ".data ++ normalized ++ ".\n".data
            ++ format_crm_message cfg.tokenCfg r.2.1 r.2.2
        r.1.map (BotEvent.crmGet ("buyer_phone".data))
          ++ [.send c response_text]
          ++ (if r.2.1.isEmpty then [] else noteEvents cfg r.2.1 response_text)
      | none =>
        match normalize_email text with
        | some email =>
          let r := lookup_buyers cfg ("buyer_email".data) email
          let response_text :=
            "Дякуємо! Ми отримали ваш e-mail: ".data ++ email ++ ".\n".data
              ++ format_crm_message cfg.tokenCfg r.1 r.2
          [.crmGet ("buyer_email".data) email, .send c response_text]
            ++ (if r.1.isEmpty then [] else noteEvents cfg r.1 response_text)
        | none =>
          [.send c ("Будь ласка, введіть номер у форматі +380XXXXXXXXX, e-mail або поділіться контактом кнопкою.".data)]

/-- `offset = update.get("update_id", offset) + 1` (bot.py:354). -/
def advanceOffset (off : Int) (u : Update) : Int := (u.update_id.getD off) + 1

/-- One polled batch run by the `for` loop (bot.py:353-404).  `errs u` says
that the Telegram send issued while handling `u` raises; `_call_api`
re-raises (bot.py:95-98), the exception propagates out of the `for` loop to
the `except` arms at the `while` level (bot.py:408-416), so the rest of the
batch is abandoned — but only after the offset was already advanced past `u`.
Returns the final offset and the emitted events (claims use the offset; on an
aborted update the events of its partial handling are dropped). -/
def processBatch (cfg : LoopCfg) (errs : Update → Bool) :
    Int → List Update → Int × List BotEvent
  | off, [] => (off, [])
  | off, u :: rest =>
    let off2 := advanceOffset off u
    if errs u then (off2, [])
    else
      let t := processBatch cfg errs off2 rest
      (t.1, handleUpdate cfg u ++ t.2)

/-- The successive offset values taken while running one batch. -/
def batchOffsets (errs : Update → Bool) : Int → List Update → List Int
  | _, [] => []
  | off, u :: rest =>
    let off2 := advanceOffset off u
    if errs u then [off2] else off2 :: batchOffsets errs off2 rest

/-- Telegram's `getUpdates(offset)` contract over a batch: every update
carries an id, ids are at least one below the running offset and
non-decreasing along the batch. -/
def idsAscFrom : Int → List Update → Prop
  | _, [] => True
  | off, u :: rest => ∃ k, u.update_id = some k ∧ off ≤ k + 1 ∧ idsAscFrom (k + 1) rest

def sendCount (evs : List BotEvent) : Nat := evs.countP (fun e => isSend e)

/-- The `(chat, text)` pairs of the sends among a list of events. -/
def sendsOf (evs : List BotEvent) : List (Int × Str) :=
  evs.filterMap (fun e => match e with
    | .send c t => some (c, t)
    | _ => none)

/-- Does a rendered line start with an ASCII digit?  Exactly the first lines
of buyer blocks do. -/
def isDigitStart (l : Str) : Bool :=
  match l with
  | c :: _ => c.isDigit
  | [] => false

/-- Does a rendered line start with a space?  All non-first block lines do. -/
def headIsSpace (l : Str) : Bool :=
  match l with
  | c :: _ => c == ' '
  | [] => false

/-! ### Concrete fixtures used by counterexamples and witnesses -/

/-- Configuration with no allow-list, no CRM token. -/
def cfgOpenNoToken : LoopCfg := ⟨[], false, fun _ _ => none, []⟩

/-- Configuration with a CRM token whose every CRM call fails. -/
def cfgTokenCrmDown : LoopCfg := ⟨[], true, fun _ _ => none, []⟩

def sampleBuyer : Buyer :=
  { emptyBuyer with id := some 1, full_name := some ("Тест Тестович".data) }

/-- Configuration with a CRM token and a CRM that answers every query with
one matched buyer. -/
def cfgLive : LoopCfg :=
  ⟨[], true, fun _ _ => some ⟨some [sampleBuyer], some 1⟩, "2024-01-01 00:00:00".data⟩

/-- An update whose message is the typed phone number `0991234567` from
chat 1. -/
def phoneUpd (i : Int) : Update :=
  ⟨some i, some ⟨some ("0991234567".data), some ⟨some 1⟩⟩⟩

/-- An update whose message carries a shared-contact payload and no text:
`main` reads only `text` and `chat` from a message, so this is how a
contact-share reaches the loop. -/
def contactUpd : Update := ⟨some 1, some ⟨none, some ⟨some 5⟩⟩⟩

/-- Error oracle: the reply send raises exactly for update_id 5. -/
def errAtFive : Update → Bool := fun u => u.update_id == some 5

/-- A first matched buyer whose existing note starts with a space. -/
def wsNoteBuyer : Buyer :=
  { emptyBuyer with id := some 1, full_name := some ("Іван".data),
                    note := some (" старий".data) }

/-- A first matched buyer with an ordinary existing note. -/
def helloNoteBuyer : Buyer :=
  { emptyBuyer with id := some 7, full_name := some ("Іван".data),
                    note := some ("hello".data) }

/-- Configuration with allow-list `{111}` and a live CRM. -/
def cfgAllow111 : LoopCfg :=
  ⟨[111], true, fun _ _ => some ⟨some [sampleBuyer], some 1⟩, []⟩

/-- A phone-text update from the out-of-allow-list chat 222. -/
def upd222 : Update :=
  ⟨some 1, some ⟨some ("0991234567".data), some ⟨some 222⟩⟩⟩

/-- An update whose message is the typed e-mail `user@mail.com` from chat 1. -/
def emailUpd : Update :=
  ⟨some 2, some ⟨some ("user@mail.com".data), some ⟨some 1⟩⟩⟩

/-! ### Helper lemmas -/

theorem listStartsWith_self_append (p t : Str) : listStartsWith p (p ++ t) = true := by
  induction p with
  | nil => rfl
  | cons c cs ih => simp [listStartsWith, ih]

theorem listStartsWith_iff_append (p s : Str) :
    listStartsWith p s = true ↔ ∃ t, s = p ++ t := by
  induction p generalizing s with
  | nil => simp [listStartsWith]
  | cons c cs ih =>
    cases s with
    | nil => simp [listStartsWith]
    | cons a as =>
      simp only [listStartsWith, Bool.and_eq_true, beq_iff_eq, ih]
      constructor
      · rintro ⟨rfl, t, rfl⟩
        exact ⟨t, rfl⟩
      · rintro ⟨t, h⟩
        cases h
        exact ⟨rfl, t, rfl⟩

theorem dropWhile_append_of_exists {p : Char → Bool} (l₁ l₂ : Str)
    (h : ∃ x ∈ l₁, p x = false) :
    List.dropWhile p (l₁ ++ l₂) = List.dropWhile p l₁ ++ l₂ := by
  induction l₁ with
  | nil => simp at h
  | cons a t ih =>
    by_cases ha : p a = true
    · obtain ⟨x, hx, hpx⟩ := h
      rcases List.mem_cons.mp hx with rfl | hxt
      · rw [ha] at hpx; cases hpx
      · simp only [List.cons_append, List.dropWhile_cons, ha, if_pos rfl, ite_true]
        exact ih ⟨x, hxt, hpx⟩
    · have ha' : p a = false := by
        cases hpa : p a
        · rfl
        · exact absurd hpa ha
      simp [List.dropWhile_cons, ha']

theorem headIsSpace_not_digit {l : Str} (h : headIsSpace l = true) :
    isDigitStart l = false := by
  cases l with
  | nil => simp [headIsSpace] at h
  | cons c cs =>
    simp only [headIsSpace, beq_iff_eq] at h
    subst h
    rfl


/-! ### C3 — shared-contact payloads -/

/-- C3: refuted by the code — the loop never reads a contact payload.  A
message carrying a shared contact has no `text`, and `main` reads only
`text` and `chat` from a message, so a contact-share update produces no
event at all: no CRM phone lookup, no thanks-plus-result reply, no note
update, even with access allowed and a live CRM.  The claim (and the spec's
classification step) says the contact's phone number is used as the
identifier. -/
theorem C3_contact_ignored : handleUpdate cfgLive contactUpd = [] := by decide

/-! ### C8 — formatter purity -/

/-- C8 counterexample: the formatter is not a function of `(records, total)`
alone — with the same empty records and total 0, the produced text differs
depending on whether the `KEYCRM_TOKEN` environment value is configured
(the source reads `_get_keycrm_token()` inside the empty branch). -/
theorem C8_counterexample :
    format_crm_message true [] 0 ≠ format_crm_message false [] 0 := by decide

/-- C8 (amended): the formatter is a pure function of `(records, total)` and
the token-configured flag; whenever the records list is non-empty the flag is
irrelevant, so there the text depends on `(records, total)` alone. -/
theorem C8_pure_on_nonempty (t₁ t₂ : Bool) (buyers : List Buyer) (total : Nat)
    (h : buyers ≠ []) :
    format_crm_message t₁ buyers total = format_crm_message t₂ buyers total := by
  cases buyers with
  | nil => exact absurd rfl h
  | cons b bs => rfl

/-- C8 witness: the amended theorem applied at one non-empty record list. -/
theorem C8_witness :
    format_crm_message true [sampleBuyer] 1 = format_crm_message false [sampleBuyer] 1 :=
  C8_pure_on_nonempty true false [sampleBuyer] 1 (by simp)

/-! ### C4 — phone normalization -/

/-- C4 counterexample: a 9-digit string with a leading zero.  The claim's
shape list ("9 digits with no leading zero and no country code") puts this
input in the "no match" bucket, but `_normalize_phone` checks only
`len(digits) == 9` and succeeds, producing `+380012345678`. -/
theorem C4_counterexample :
    normalize_phone ("012345678".data) = some ("+380012345678".data)
    ∧ claim_shape_c4 (pyDigits ("012345678".data)) = false := by decide

/-- C4 (amended): normalization first strips all non-digit characters and
succeeds exactly when the digit string has length 12 starting `380`, length
10 starting `0`, length 9 (any leading digit — the source does not exclude a
leading zero or country code here), or length 11 starting `80`; every
success is a canonical `+380`-prefixed value of total length 13, and every
other shape yields no match. -/
theorem C4_phone_shape (raw : Str) :
    ((normalize_phone raw).isSome = normalizable_shape (pyDigits raw))
    ∧ (∀ out, normalize_phone raw = some out →
        out.length = 13 ∧ listStartsWith ("+380".data) out = true) := by
  constructor
  · unfold normalize_phone normalizable_shape
    split_ifs with h1 h2 h3 h4 <;>
      simp_all [Bool.or_eq_true, Bool.and_eq_true]
  · intro out hout
    unfold normalize_phone at hout
    split_ifs at hout with h1 h2 h3 h4
    · simp only [Bool.and_eq_true] at h1
      obtain ⟨hlen, hsw⟩ := h1
      obtain ⟨t, ht⟩ := (listStartsWith_iff_append _ _).mp hsw
      cases hout
      constructor
      · have : (pyDigits raw).length = 12 := by simpa using hlen
        simp [this]
      · rw [ht]
        exact listStartsWith_self_append ("+380".data) t
    · simp only [Bool.and_eq_true] at h2
      obtain ⟨hlen, hsw⟩ := h2
      cases hout
      constructor
      · have : (pyDigits raw).length = 10 := by simpa using hlen
        simp [List.length_append, List.length_drop, this]
      · exact listStartsWith_self_append ("+380".data) _
    · cases hout
      constructor
      · have : (pyDigits raw).length = 9 := by simpa using h3
        simp [List.length_append, this]
      · exact listStartsWith_self_append ("+380".data) _
    · simp only [Bool.and_eq_true] at h4
      obtain ⟨hlen, hsw⟩ := h4
      obtain ⟨t, ht⟩ := (listStartsWith_iff_append _ _).mp hsw
      cases hout
      constructor
      · have : (pyDigits raw).length = 11 := by simpa using hlen
        simp [List.length_append, this]
      · rw [ht]
        rfl

/-- C4 witness: the amended theorem applied at `0991234567`. -/
theorem C4_witness :
    ("+380991234567".data).length = 13
    ∧ listStartsWith ("+380".data) ("+380991234567".data) = true :=
  (C4_phone_shape ("0991234567".data)).2 ("+380991234567".data) (by decide)

/-! ### C10 — allow-list parsing -/

/-- C10: parsing `ALLOWED_CHAT_IDS` is total and keeps exactly the comma
tokens that parse as integers after trimming whitespace (empty and malformed
tokens are skipped); a string of only malformed tokens yields the empty
allow-list, and with an empty allow-list the access gate never denies any
update. -/
theorem C10_allowlist :
    (∀ raw x, x ∈ allowed_chat_ids raw ↔
        ∃ part ∈ splitComma raw, pyInt (pyStrip part) = some x)
    ∧ allowed_chat_ids ("abc,xyz".data) = []
    ∧ (∀ cfg u, cfg.allowed = [] → denies cfg u = false) := by
  refine ⟨?_, by decide, ?_⟩
  · intro raw x
    unfold allowed_chat_ids
    rw [List.mem_filterMap]
    constructor
    · rintro ⟨part, hmem, hsome⟩
      refine ⟨part, hmem, ?_⟩
      by_cases he : (pyStrip part).isEmpty
      · rw [if_pos he] at hsome
        cases hsome
      · rwa [if_neg he] at hsome
    · rintro ⟨part, hmem, hsome⟩
      refine ⟨part, hmem, ?_⟩
      by_cases he : (pyStrip part).isEmpty
      · have : pyStrip part = [] := by simpa [List.isEmpty_iff] using he
        rw [this] at hsome
        cases hsome
      · rwa [if_neg he]
  · intro cfg u hempty
    unfold denies
    cases chatIdOf u with
    | none => rfl
    | some c => simp [hempty]

/-- C10 witness: the theorem's access-gate conjunct applied at a concrete
configuration with an empty allow-list and a concrete update. -/
theorem C10_witness : denies cfgTokenCrmDown contactUpd = false :=
  C10_allowlist.2.2 cfgTokenCrmDown contactUpd rfl

/-! ### C9 — note updater -/

/-- C9 counterexample: a prior note that starts with a space.  Because the
source applies `.strip()` to the concatenation, the leading space of the
prior note `" старий"` is removed, so the prior content is not preserved
unchanged as a prefix of the new note, contrary to the claim. -/
theorem C9_counterexample :
    update_buyer_note_for_first true [wsNoteBuyer] ("m".data) ("T".data)
      = some (1, "Іван".data, "старий\n[T] Bot: m".data)
    ∧ listStartsWith (" старий".data) ("старий\n[T] Bot: m".data) = false := by
  decide

/-- C9 (amended): for a first matched buyer with a truthy id and a token
configured, the updater pushes `(id, full_name, new_note)` where the new
note is the prior note with the line `[<timestamp>] Bot: <reply text>`
appended and then the whole string stripped of surrounding whitespace; when
the prior note starts with a non-whitespace character (and trivially when it
is empty) the prior content survives as a prefix of the new note. -/
theorem C9_note_update (b : Buyer) (rest : List Buyer) (message ts : Str)
    (i : Nat) (hid : b.id = some i) (hi : i ≠ 0) :
    update_buyer_note_for_first true (b :: rest) message ts
      = some (i, pyOrS b.full_name (pyOrS b.name ("Без імені".data)),
          pyStrip ((b.note.getD []) ++ "\n[".data ++ ts ++ "] Bot: ".data ++ message))
    ∧ (∀ c cs, b.note.getD [] = c :: cs → wsChar c = false →
        ∃ t, (b.note.getD []) ++ t
          = pyStrip ((b.note.getD []) ++ "\n[".data ++ ts ++ "] Bot: ".data ++ message)) := by
  constructor
  · simp [update_buyer_note_for_first, hid, hi]
  · intro c cs hnote hc
    rw [hnote]
    have hassoc : (c :: cs) ++ "\n[".data ++ ts ++ "] Bot: ".data ++ message
        = c :: (cs ++ ('\n' :: '[' :: (ts ++ "] Bot: ".data ++ message))) := by
      simp
    have hstep1 : List.dropWhile wsChar
        ((c :: cs) ++ "\n[".data ++ ts ++ "] Bot: ".data ++ message)
        = (c :: cs) ++ ('\n' :: '[' :: (ts ++ "] Bot: ".data ++ message)) := by
      rw [hassoc, List.dropWhile_cons, hc]
      simp
    have hbr : ∃ x ∈ ('\n' :: '[' :: (ts ++ "] Bot: ".data ++ message)).reverse,
        wsChar x = false := by
      refine ⟨'[', ?_, by decide⟩
      rw [List.mem_reverse]
      simp
    refine ⟨(List.dropWhile wsChar
      ('\n' :: '[' :: (ts ++ "] Bot: ".data ++ message)).reverse).reverse, ?_⟩
    unfold pyStrip
    rw [hstep1, List.reverse_append,
        dropWhile_append_of_exists _ _ hbr, List.reverse_append,
        List.reverse_reverse]

/-- C9 witness: the amended theorem applied at a buyer with note `hello`,
id 7, reply `m` and timestamp `T`. -/
theorem C9_witness :
    update_buyer_note_for_first true [helloNoteBuyer] ("m".data) ("T".data)
      = some (7, "Іван".data,
          pyStrip (("hello".data) ++ "\n[".data ++ "T".data ++ "] Bot: ".data ++ "m".data)) :=
  (C9_note_update helloNoteBuyer [] ("m".data) ("T".data) 7 rfl (by decide)).1

/-! ### C5 — phone lookup fallback order -/

/-- Every normalized phone starts `+3` and its tail holds no further `+`:
it has the shape `'+' :: '3' :: t`. -/
theorem normalize_phone_form (raw p : Str) (h : normalize_phone raw = some p) :
    ∃ t, p = '+' :: '3' :: t := by
  unfold normalize_phone at h
  split_ifs at h with h1 h2 h3 h4
  · simp only [Bool.and_eq_true] at h1
    obtain ⟨t, ht⟩ := (listStartsWith_iff_append _ _).mp h1.2
    cases h
    exact ⟨'8' :: '0' :: t, by rw [ht]; rfl⟩
  · cases h
    exact ⟨'8' :: '0' :: (pyDigits raw).drop 1, rfl⟩
  · cases h
    exact ⟨'8' :: '0' :: pyDigits raw, rfl⟩
  · cases h
    exact ⟨pyDigits raw, rfl⟩

/-- The instrumented fallback loop and the claim's short-circuit evaluator
agree on the returned `(buyers, total)` for any candidate list. -/
theorem lookupVariantsRun_eq_claim_run (cfg : LoopCfg) (l : List Str) :
    (lookupVariantsRun cfg l).2 = claim_run_c5 cfg l := by
  induction l with
  | nil => rfl
  | cons v rest ih =>
    unfold lookupVariantsRun claim_run_c5
    dsimp only
    split_ifs with h
    · rfl
    · exact ih

/-- Exhausting the candidate list yields `([], 0)`. -/
theorem claim_run_c5_exhausted (cfg : LoopCfg) (l : List Str)
    (h : ∀ v ∈ l, (lookup_buyers cfg ("buyer_phone".data) v).2 = 0) :
    claim_run_c5 cfg l = ([], 0) := by
  induction l with
  | nil => rfl
  | cons v rest ih =>
    unfold claim_run_c5
    have hv := h v (List.mem_cons_self v rest)
    rw [if_neg (by simp [hv])]
    exact ih (fun w hw => h w (List.mem_cons_of_mem v hw))

/-- C5: for every normalized phone value, the fallback lookup evaluates the
claim's candidate queries in the claim's order — the value as given, then
the value without its leading `+` (present exactly because a normalized
value has one), the `+`-prepended variant being skipped since a normalized
value starts with `+` — short-circuiting on the first non-zero total, and
returns `([], 0)` when every candidate's total is zero. -/
theorem C5_fallback_refines (cfg : LoopCfg) (raw p : Str)
    (h : normalize_phone raw = some p) :
    (lookup_phone_with_fallbacks cfg p).2 = claim_run_c5 cfg (claim_candidates_c5 p)
    ∧ ((∀ v ∈ claim_candidates_c5 p, (lookup_buyers cfg ("buyer_phone".data) v).2 = 0) →
        (lookup_phone_with_fallbacks cfg p).2 = ([], 0)) := by
  obtain ⟨t, rfl⟩ := normalize_phone_form raw p h
  have hvars : phoneVariants ('+' :: '3' :: t) = claim_candidates_c5 ('+' :: '3' :: t) := by
    unfold phoneVariants claim_candidates_c5
    rfl
  constructor
  · unfold lookup_phone_with_fallbacks
    rw [hvars]
    exact lookupVariantsRun_eq_claim_run cfg _
  · intro hall
    unfold lookup_phone_with_fallbacks
    rw [hvars, lookupVariantsRun_eq_claim_run cfg _]
    exact claim_run_c5_exhausted cfg _ hall

/-- C5 witness: the refinement applied to the normalization of `0991234567`
against a live CRM oracle. -/
theorem C5_witness :
    (lookup_phone_with_fallbacks cfgLive ("+380991234567".data)).2
      = claim_run_c5 cfgLive (claim_candidates_c5 ("+380991234567".data)) :=
  (C5_fallback_refines cfgLive ("0991234567".data) ("+380991234567".data) (by decide)).1

/-! ### C2 — one reply per update -/

theorem sendCount_append (a b : List BotEvent) :
    sendCount (a ++ b) = sendCount a + sendCount b := by
  unfold sendCount
  exact List.countP_append _ _ _

theorem sendCount_crmGets (f : Str) (l : List Str) :
    sendCount (l.map (BotEvent.crmGet f)) = 0 := by
  induction l with
  | nil => rfl
  | cons v rest ih => simp [sendCount, List.countP_cons, isSend, ih]

theorem sendCount_send_cons (c : Int) (t : Str) (l : List BotEvent) :
    sendCount (BotEvent.send c t :: l) = sendCount l + 1 := by
  simp [sendCount, List.countP_cons, isSend]

theorem sendCount_crmGet_cons (f v : Str) (l : List BotEvent) :
    sendCount (BotEvent.crmGet f v :: l) = sendCount l := by
  simp [sendCount, List.countP_cons, isSend]

theorem sendCount_nil : sendCount [] = 0 := rfl

theorem sendCount_send (c : Int) (t : Str) :
    sendCount [BotEvent.send c t] = 1 := rfl

theorem sendCount_note_ite (P : Prop) [inst : Decidable P] (cfg : LoopCfg)
    (buyers : List Buyer) (resp : Str) :
    sendCount (if P then [] else noteEvents cfg buyers resp) = 0 := by
  split
  · rfl
  · unfold noteEvents
    cases update_buyer_note_for_first cfg.tokenCfg buyers resp cfg.now with
    | none => rfl
    | some r => rfl

/-- C2 (amended): at most one reply is ever sent per update, and the count
is characterized exactly — one reply is sent precisely when the update's
chat id is truthy and either the access gate denies it or the message text
is non-empty; a message with no text (a media- or contact-only message) from
an allowed chat gets no reply at all, contrary to the claim's "exactly one
reply per update that carries a message from a chat". -/
theorem C2_reply_count (cfg : LoopCfg) (u : Update) :
    (sendCount (handleUpdate cfg u)
      = if chatTruthy u = true ∧ (denies cfg u = true ∨ textOf u ≠ []) then 1 else 0)
    ∧ (∀ c, chatIdOf u = some c → c ≠ 0 → denies cfg u = true →
        handleUpdate cfg u = [BotEvent.send c ("Доступ обмежено для цього бота.".data)]) := by
  constructor
  case right =>
    intro c hch hc hd
    simp [handleUpdate, hch, hc, hd]
  case left =>
  cases hch : chatIdOf u with
  | none =>
    have hd : denies cfg u = false := by unfold denies; rw [hch]
    have hct : chatTruthy u = false := by unfold chatTruthy; rw [hch]
    simp [handleUpdate, hch, hct, hd, sendCount_nil]
  | some c =>
    have hct : chatTruthy u = (c != 0) := by unfold chatTruthy; rw [hch]
    by_cases hc : c = 0
    · subst hc
      have hd : denies cfg u = false := by unfold denies; rw [hch]; simp
      simp [handleUpdate, hch, hct, hd, sendCount_nil]
    · by_cases hd : denies cfg u = true
      · simp [handleUpdate, hch, hct, hc, hd, sendCount_send]
      · have hd' : denies cfg u = false := by
          cases hdd : denies cfg u
          · rfl
          · exact absurd hdd hd
        by_cases hs : listStartsWith ("/start".data) (textOf u) = true
        · have ht : textOf u ≠ [] := by
            intro hnil
            rw [hnil] at hs
            exact absurd hs (by decide)
          simp [handleUpdate, hch, hct, hc, hd', hs, ht, sendCount_send]
        · have hs' : listStartsWith ("/start".data) (textOf u) = false := by
            cases hss : listStartsWith ("/start".data) (textOf u)
            · rfl
            · exact absurd hss hs
          by_cases hte : textOf u = []
          · simp [handleUpdate, hch, hct, hc, hd', hte]
            rfl
          · cases hp : normalize_phone (textOf u) with
            | some p =>
              simp [handleUpdate, hch, hct, hc, hd', hs', hte, hp,
                    sendCount_append, sendCount_crmGets, sendCount_send_cons,
                    sendCount_crmGet_cons, sendCount_note_ite, sendCount_nil]
            | none =>
              cases he : normalize_email (textOf u) with
              | some em =>
                simp [handleUpdate, hch, hct, hc, hd', hs', hte, hp, he,
                      sendCount_append, sendCount_crmGets, sendCount_send_cons,
                      sendCount_crmGet_cons, sendCount_note_ite, sendCount_nil]
              | none =>
                simp [handleUpdate, hch, hct, hc, hd', hs', hte, hp, he,
                      sendCount_send]

/-- C2 counterexample: an update carrying a message from chat 1 with no
text (as a media-only or contact-share message has) receives zero replies,
not exactly one, even though access is allowed and the CRM is live. -/
theorem C2_counterexample :
    sendCount (handleUpdate cfgLive ⟨some 1, some ⟨none, some ⟨some 1⟩⟩⟩) = 0
    ∧ sendCount (handleUpdate cfgLive ⟨some 1, some ⟨none, some ⟨some 1⟩⟩⟩) ≠ 1 := by
  decide

/-! ### C6 — CRM failure handling -/

/-- With a token configured but every CRM call failing, each lookup reports
zero results. -/
theorem lookup_buyers_failed (cfg : LoopCfg) (hTok : cfg.tokenCfg = true)
    (hFail : ∀ f v, cfg.crm f v = none) (f v : Str) :
    lookup_buyers cfg f v = ([], 0) := by
  unfold lookup_buyers fetch_keycrm
  rw [hTok, if_pos rfl, hFail]

/-- When every phone lookup reports zero, the fallback loop tries every
variant and returns `([], 0)`. -/
theorem lookupVariantsRun_all_zero (cfg : LoopCfg)
    (hz : ∀ v, lookup_buyers cfg ("buyer_phone".data) v = ([], 0)) (l : List Str) :
    lookupVariantsRun cfg l = (l, [], 0) := by
  induction l with
  | nil => rfl
  | cons v rest ih =>
    unfold lookupVariantsRun
    rw [hz v, ih]
    rfl

/-- The first line of an intercalation is a prefix of the result. -/
theorem intercalate_cons_head (sep a : Str) (rest : List Str) :
    ∃ t, List.intercalate sep (a :: rest) = a ++ t := by
  cases rest with
  | nil => exact ⟨[], by simp [List.intercalate]⟩
  | cons b t =>
    exact ⟨sep ++ List.intercalate sep (b :: t), by simp [List.intercalate]⟩

/-- A message formatted from a non-empty record list starts with the header
letter `З`, so it can never equal one of the fixed empty-case notices. -/
theorem format_nonempty_headD (tok : Bool) (b : Buyer) (bs : List Buyer)
    (total : Nat) :
    (format_crm_message tok (b :: bs) total).headD ' ' = 'З' := by
  unfold format_crm_message
  rw [if_neg (by simp)]
  unfold format_crm_lines
  rw [List.cons_append]
  obtain ⟨t, ht⟩ := intercalate_cons_head ("\n".data) (headerLine total)
    (blocksFrom 1 ((b :: bs).take 5)
      ++ (if (b :: bs).length < total then [footerLine] else []))
  rw [ht]
  rfl

/-- C6 (amended): when a CRM token is configured but the CRM call fails
(network error, non-2xx, malformed payload), the failure is swallowed and
reported as zero results with total 0, and the user-facing reply is still
sent — exactly one send, both for a phone-classified and for an
email-classified identifier, whose text is the thanks line followed by the
fixed "not found" notice `Номер не знайдено в системі.`; the "unavailable"
notice `Перевірка номера в CRM недоступна зараз.` is the formatted message
exactly when no CRM token is configured (and the result set is empty). -/
theorem C6_crm_failure (cfg : LoopCfg)
    (hTok : cfg.tokenCfg = true) (hFail : ∀ f v, cfg.crm f v = none) :
    (∀ f v, lookup_buyers cfg f v = ([], 0))
    ∧ (∀ (u : Update) (c : Int) (p : Str), chatIdOf u = some c → c ≠ 0 →
        denies cfg u = false →
        listStartsWith ("/start".data) (textOf u) = false →
        normalize_phone (textOf u) = some p →
        sendsOf (handleUpdate cfg u)
          = [(c, "Дякуємо! Ми отримали ваш номер: ".data ++ p ++ ".\n".data
                ++ "Номер не знайдено в системі.".data)])
    ∧ (∀ (u : Update) (c : Int) (em : Str), chatIdOf u = some c → c ≠ 0 →
        denies cfg u = false →
        listStartsWith ("/start".data) (textOf u) = false →
        normalize_phone (textOf u) = none →
        normalize_email (textOf u) = some em →
        sendsOf (handleUpdate cfg u)
          = [(c, "Дякуємо! Ми отримали ваш e-mail: ".data ++ em ++ ".\n".data
                ++ "Номер не знайдено в системі.".data)])
    ∧ (∀ (tok : Bool) (buyers : List Buyer) (total : Nat),
        format_crm_message tok buyers total
            = "Перевірка номера в CRM недоступна зараз.".data
          ↔ (tok = false ∧ buyers = [])) := by
  have hfmt : format_crm_message cfg.tokenCfg [] 0
      = "Номер не знайдено в системі.".data := by
    rw [hTok]
    rfl
  refine ⟨fun f v => lookup_buyers_failed cfg hTok hFail f v, ?_, ?_, ?_⟩
  · intro u c p hch hc hdeny hstart hp
    have hte : textOf u ≠ [] := by
      intro hnil
      rw [hnil] at hp
      exact Option.noConfusion hp
    have hrun : lookup_phone_with_fallbacks cfg p = (phoneVariants p, [], 0) := by
      unfold lookup_phone_with_fallbacks
      exact lookupVariantsRun_all_zero cfg
        (fun v => lookup_buyers_failed cfg hTok hFail _ v) _
    simp [handleUpdate, hch, hc, hdeny, hstart, hte, hp, hrun, hfmt,
          sendsOf, List.filterMap_append]
  · intro u c em hch hc hdeny hstart hp he
    have hte : textOf u ≠ [] := by
      intro hnil
      rw [hnil] at he
      exact Option.noConfusion he
    simp [handleUpdate, hch, hc, hdeny, hstart, hte, hp, he,
          lookup_buyers_failed cfg hTok hFail, hfmt,
          sendsOf, List.filterMap_append]
  · intro tok buyers total
    constructor
    · intro h
      cases buyers with
      | cons b bs =>
        have hh := format_nonempty_headD tok b bs total
        rw [h] at hh
        exact absurd hh (by decide)
      | nil =>
        cases tok with
        | true =>
          rw [show format_crm_message true [] total
              = "Номер не знайдено в системі.".data from rfl] at h
          exact absurd h (by decide)
        | false => exact ⟨rfl, rfl⟩
    · rintro ⟨rfl, rfl⟩
      rfl

/-- C6 witness: the amended theorem applied with a configured token and a
CRM that fails every call, to the typed phone `0991234567` from chat 1, the
typed e-mail `user@mail.com` from chat 1, and the empty-result formatter
instance of the unavailable-iff-no-token clause. -/
theorem C6_witness :
    sendsOf (handleUpdate cfgTokenCrmDown (phoneUpd 1))
      = [((1 : Int), "Дякуємо! Ми отримали ваш номер: ".data ++ "+380991234567".data
            ++ ".\n".data ++ "Номер не знайдено в системі.".data)]
    ∧ sendsOf (handleUpdate cfgTokenCrmDown emailUpd)
      = [((1 : Int), "Дякуємо! Ми отримали ваш e-mail: ".data ++ "user@mail.com".data
            ++ ".\n".data ++ "Номер не знайдено в системі.".data)]
    ∧ (format_crm_message false [] 0 = "Перевірка номера в CRM недоступна зараз.".data
        ↔ (false = false ∧ ([] : List Buyer) = [])) :=
  ⟨(C6_crm_failure cfgTokenCrmDown rfl (fun _ _ => rfl)).2.1 (phoneUpd 1) 1
      ("+380991234567".data) rfl (by decide) (by decide) (by decide) (by decide),
   (C6_crm_failure cfgTokenCrmDown rfl (fun _ _ => rfl)).2.2.1 emailUpd 1
      ("user@mail.com".data) rfl (by decide) (by decide) (by decide) (by decide)
      (by decide),
   (C6_crm_failure cfgTokenCrmDown rfl (fun _ _ => rfl)).2.2.2 false [] 0⟩

/-- C6 counterexample: in the very scenario of the claim — token configured,
CRM call failing — the single reply does not contain the "unavailable"
notice (`Перевірка номера в CRM недоступна зараз.`); it carries the
"not found" text instead, refuting the claim's last conjunct. -/
theorem C6_counterexample :
    sendsOf (handleUpdate cfgTokenCrmDown (phoneUpd 1))
      ≠ [((1 : Int),
          "Дякуємо! Ми отримали ваш номер: +380991234567.\nПеревірка номера в CRM недоступна зараз.".data)]
    ∧ sendsOf (handleUpdate cfgTokenCrmDown (phoneUpd 1))
      = [((1 : Int),
          "Дякуємо! Ми отримали ваш номер: +380991234567.\nНомер не знайдено в системі.".data)]
    ∧ listContainsSub ("недоступна".data)
        ("Дякуємо! Ми отримали ваш номер: +380991234567.\nНомер не знайдено в системі.".data) = false := by
  decide

/-! ### C1 — offset invariant over one batch -/

/-- Under the `getUpdates` contract, the successive offsets taken while
running a batch never decrease, whether or not some reply raises. -/
theorem chain_batchOffsets (errs : Update → Bool) :
    ∀ (b : List Update) (off : Int), idsAscFrom off b →
      List.Chain' (· ≤ ·) (off :: batchOffsets errs off b)
  | [], off, _ => by simp [batchOffsets]
  | u :: rest, off, h => by
    obtain ⟨k, hk, hoff, hrest⟩ := h
    unfold batchOffsets advanceOffset
    rw [hk]
    by_cases he : errs u = true
    · rw [if_pos he]
      exact List.chain'_cons.mpr ⟨hoff, List.chain'_singleton _⟩
    · rw [if_neg he]
      exact List.chain'_cons.mpr ⟨hoff, chain_batchOffsets errs rest (k + 1) hrest⟩

/-- The final offset of a batch run is the last element of its offset
trace (or the starting offset for an empty batch). -/
theorem processBatch_fst_eq_getLastD (cfg : LoopCfg) (errs : Update → Bool) :
    ∀ (b : List Update) (off : Int),
      (processBatch cfg errs off b).1 = (batchOffsets errs off b).getLastD off
  | [], off => rfl
  | u :: rest, off => by
    unfold processBatch batchOffsets
    by_cases he : errs u = true
    · rw [if_pos he, if_pos he]
      rfl
    · rw [if_neg he, if_neg he]
      dsimp only
      rw [processBatch_fst_eq_getLastD cfg errs rest (advanceOffset off u)]
      rw [List.getLastD_cons]

/-- C1 (amended): the offset is advanced to `update_id + 1` before any
handling, so after the loop body stops — at the end of the batch when no
reply raises, or at the erroring update `u` when `u`'s reply raises a
transport error (the exception aborts the `for` loop, leaving later updates
unprocessed until the next poll) — the offset equals one past the id of the
last update whose handling began, not necessarily one past the batch's
highest id; along the way the offset trace is monotonically non-decreasing
whenever the batch satisfies the `getUpdates` id contract. -/
theorem C1_offset_progress (cfg : LoopCfg) (errs : Update → Bool) (off₀ k : Int)
    (pre post : List Update) (u : Update)
    (hk : u.update_id = some k)
    (hpre : ∀ v ∈ pre, errs v = false)
    (hstop : errs u = true ∨ post = []) :
    (processBatch cfg errs off₀ (pre ++ u :: post)).1 = k + 1
    ∧ (idsAscFrom off₀ (pre ++ u :: post) →
        List.Chain' (· ≤ ·) (off₀ :: batchOffsets errs off₀ (pre ++ u :: post)))
    ∧ (processBatch cfg errs off₀ (pre ++ u :: post)).1
        = (batchOffsets errs off₀ (pre ++ u :: post)).getLastD off₀ := by
  refine ⟨?_, fun h => chain_batchOffsets errs _ off₀ h,
          processBatch_fst_eq_getLastD cfg errs _ off₀⟩
  induction pre generalizing off₀ with
  | nil =>
    rw [List.nil_append]
    unfold processBatch advanceOffset
    rw [hk]
    rcases hstop with he | hpost
    · rw [if_pos he]
      rfl
    · by_cases he : errs u = true
      · rw [if_pos he]
        rfl
      · rw [if_neg he, hpost]
        rfl
  | cons v vs ih =>
    have hv : errs v = false := hpre v (List.mem_cons_self v vs)
    rw [List.cons_append]
    unfold processBatch
    rw [if_neg (by rw [hv]; exact Bool.false_ne_true)]
    exact ih (advanceOffset off₀ v) (fun w hw => hpre w (List.mem_cons_of_mem v hw))

/-- C1 witness: a batch with ids 5, 6, 7 from offset 5 and no transport
error ends with offset 8 = 7 + 1. -/
theorem C1_witness :
    (processBatch cfgLive (fun _ => false) 5 [phoneUpd 5, phoneUpd 6, phoneUpd 7]).1
      = 7 + 1 :=
  (C1_offset_progress cfgLive (fun _ => false) 5 7 [phoneUpd 5, phoneUpd 6] []
    (phoneUpd 7) rfl (fun _ _ => rfl) (Or.inr rfl)).1

/-- C1 counterexample: batch with ids `[5, 6, 7]`, starting offset 5, and a
transport error while sending the reply for update 5.  The exception aborts
the `for` loop, so the final offset is 6, not 8 as the claim states. -/
theorem C1_counterexample :
    (processBatch cfgLive errAtFive 5 [phoneUpd 5, phoneUpd 6, phoneUpd 7]).1 = 6
    ∧ (processBatch cfgLive errAtFive 5 [phoneUpd 5, phoneUpd 6, phoneUpd 7]).1 ≠ 8 := by
  decide

/-! ### C7 — formatter blocks and footer -/

theorem countP_opt_line (p : Str → Bool) (P : Prop) [inst : Decidable P] (l : Str)
    (hl : p l = false) :
    List.countP p (if P then [] else [l]) = 0 := by
  split
  · rfl
  · simp [List.countP_cons, hl]

theorem countP_map_eq_zero (p : Str → Bool) (f : Str → Str) (xs : List Str)
    (h : ∀ a, p (f a) = false) :
    List.countP p (xs.map f) = 0 := by
  induction xs with
  | nil => rfl
  | cons a t ih => simp [List.countP_cons, h a, ih]

theorem countP_ite_nil_cons (p : Str → Bool) (P : Prop) [inst : Decidable P]
    (hd : Str) (rest : List Str) (hhd : p hd = false)
    (hrest : List.countP p rest = 0) :
    List.countP p (if P then [] else hd :: rest) = 0 := by
  split
  · rfl
  · simp [List.countP_cons, hhd, hrest]

/-- The count of any predicate over a buyer block that is false on every
space-headed line reduces to its value on the block's first line. -/
theorem buyer_block_countP_gen (p : Str → Bool) (i : Nat) (b : Buyer)
    (hsp : ∀ l : Str, headIsSpace l = true → p l = false) :
    (buyer_block i b).countP p
      = (if p (natStr i ++ ". Клієнт: ".data
            ++ pyOrS b.full_name (pyOrS b.name ("Без імені".data))) then 1 else 0) := by
  have hsp' : ∀ rest : Str, p (' ' :: rest) = false := fun rest => hsp _ rfl
  simp only [buyer_block, List.countP_append, List.countP_cons, List.countP_nil]
  simp [countP_opt_line, countP_map_eq_zero, countP_ite_nil_cons, hsp']

theorem headIsSpace_ne_footer {l : Str} (h : headIsSpace l = true) :
    (l == footerLine) = false := by
  cases l with
  | nil => simp [headIsSpace] at h
  | cons c cs =>
    simp only [headIsSpace, beq_iff_eq] at h
    subst h
    rfl

theorem buyer_block_countP_digit (i : Nat) (b : Buyer) (h1 : 1 ≤ i) (h5 : i ≤ 5) :
    (buyer_block i b).countP (fun l => isDigitStart l) = 1 := by
  rw [buyer_block_countP_gen (fun l => isDigitStart l) i b
      (fun l hl => headIsSpace_not_digit hl)]
  have hfirst : ∀ x : Str, isDigitStart (natStr i ++ x) = true := by
    intro x
    interval_cases i <;> rfl
  simp [hfirst]

theorem buyer_block_countP_footer (i : Nat) (b : Buyer) (h1 : 1 ≤ i) (h5 : i ≤ 5) :
    (buyer_block i b).countP (fun l => l == footerLine) = 0 := by
  rw [buyer_block_countP_gen (fun l => l == footerLine) i b
      (fun l hl => headIsSpace_ne_footer hl)]
  have hfirst : ∀ x : Str, ¬(natStr i ++ x = footerLine) := by
    intro x hx
    have hd : ((natStr i ++ x).headD ' ').isDigit = true := by
      interval_cases i <;> rfl
    rw [hx] at hd
    exact absurd hd (by decide)
  simp [hfirst]

theorem blocksFrom_countP_digit : ∀ (bs : List Buyer) (i : Nat), 1 ≤ i →
    i + bs.length ≤ 6 →
    (blocksFrom i bs).countP (fun l => isDigitStart l) = bs.length
  | [], _, _, _ => rfl
  | b :: rest, i, h1, h6 => by
    have hlen : i + rest.length + 1 ≤ 6 := by
      simpa [Nat.add_assoc, Nat.add_comm] using h6
    unfold blocksFrom
    rw [List.countP_append,
        buyer_block_countP_digit i b h1 (by omega),
        blocksFrom_countP_digit rest (i + 1) (by omega) (by omega)]
    simp [Nat.add_comm]

theorem blocksFrom_countP_footer : ∀ (bs : List Buyer) (i : Nat), 1 ≤ i →
    i + bs.length ≤ 6 →
    (blocksFrom i bs).countP (fun l => l == footerLine) = 0
  | [], _, _, _ => rfl
  | b :: rest, i, h1, h6 => by
    have hlen : i + rest.length + 1 ≤ 6 := by
      simpa [Nat.add_assoc, Nat.add_comm] using h6
    unfold blocksFrom
    rw [List.countP_append,
        buyer_block_countP_footer i b h1 (by omega),
        blocksFrom_countP_footer rest (i + 1) (by omega) (by omega)]

theorem blocksFrom_no_footer (bs : List Buyer) (i : Nat) (h1 : 1 ≤ i)
    (h6 : i + bs.length ≤ 6) : footerLine ∉ blocksFrom i bs := by
  intro hmem
  have h0 := blocksFrom_countP_footer bs i h1 h6
  rw [List.countP_eq_zero] at h0
  exact h0 footerLine hmem (by simp)

theorem headerLine_not_digit (total : Nat) : isDigitStart (headerLine total) = false := rfl

theorem headerLine_ne_footer (total : Nat) : headerLine total ≠ footerLine := by
  intro h
  have h1 : (headerLine total).headD ' ' = 'З' := rfl
  rw [h] at h1
  exact absurd h1 (by decide)

theorem getLast?_append_single {α : Type} (l : List α) (a : α) :
    (l ++ [a]).getLast? = some a := List.getLast?_concat l

/-- C7 (amended): for non-empty results the message is the joined line list;
the number of detail blocks equals `min 5 (number of returned records)` —
so 7 records yield exactly 5 blocks — and the "first N shown" footer is
present exactly when the total exceeds the number of records the CRM
returned (`total > len(buyers)`), not when it exceeds the number of blocks
shown; when present, the footer is the last line. -/
theorem C7_format_blocks (tok : Bool) (buyers : List Buyer) (total : Nat)
    (h : buyers ≠ []) :
    format_crm_message tok buyers total
      = List.intercalate ("\n".data) (format_crm_lines buyers total)
    ∧ (format_crm_lines buyers total).countP (fun l => isDigitStart l)
        = min 5 buyers.length
    ∧ (footerLine ∈ format_crm_lines buyers total ↔ buyers.length < total)
    ∧ (buyers.length < total →
        (format_crm_lines buyers total).getLast? = some footerLine) := by
  have htake : 1 + (buyers.take 5).length ≤ 6 := by
    rw [List.length_take]
    omega
  refine ⟨?_, ?_, ?_, ?_⟩
  · unfold format_crm_message
    rw [if_neg (by simpa [List.isEmpty_iff] using h)]
  · unfold format_crm_lines
    rw [List.countP_append, List.countP_cons,
        blocksFrom_countP_digit (buyers.take 5) 1 (le_refl 1) htake,
        List.length_take]
    have hfoot : (if buyers.length < total then [footerLine] else ([] : List Str)).countP
        (fun l => isDigitStart l) = 0 := by
      split
      · rfl
      · rfl
    rw [hfoot]
    simp [headerLine_not_digit]
  · unfold format_crm_lines
    constructor
    · intro hmem
      rw [List.mem_append, List.mem_cons] at hmem
      rcases hmem with (hh | hb) | hf
      · exact absurd hh.symm (headerLine_ne_footer total)
      · exact absurd hb (blocksFrom_no_footer (buyers.take 5) 1 (le_refl 1) htake)
      · by_cases hc : buyers.length < total
        · exact hc
        · rw [if_neg hc] at hf
          cases hf
    · intro hlt
      rw [List.mem_append]
      right
      rw [if_pos hlt]
      simp
  · intro hlt
    unfold format_crm_lines
    rw [if_pos hlt]
    exact getLast?_append_single _ footerLine

/-- C7 witness: the amended theorem applied to 7 identical records with
total 7. -/
theorem C7_witness :
    (format_crm_lines (List.replicate 7 sampleBuyer) 7).countP (fun l => isDigitStart l)
      = min 5 (List.replicate 7 sampleBuyer).length :=
  (C7_format_blocks true (List.replicate 7 sampleBuyer) 7 (by simp)).2.1

/-- C7 counterexample: 7 matched records with total 7 produce exactly 5
detail blocks, yet the message does NOT end with the "first N shown" footer
(the footer does not appear at all), because the source's condition is
`total > len(buyers)` — 7 > 7 is false — not "total exceeds the shown
count". -/
theorem C7_counterexample :
    (format_crm_lines (List.replicate 7 sampleBuyer) 7).countP (fun l => isDigitStart l) = 5
    ∧ listEndsWith footerLine
        (format_crm_message true (List.replicate 7 sampleBuyer) 7) = false
    ∧ footerLine ∉ format_crm_lines (List.replicate 7 sampleBuyer) 7 := by
  decide

/-- C2 witness: the denial short-circuit conjunct applied to allow-list
`{111}` and an update from chat 222 — the only event is the fixed denial
reply (in particular no CRM lookup happens). -/
theorem C2_witness :
    handleUpdate cfgAllow111 upd222
      = [BotEvent.send 222 ("Доступ обмежено для цього бота.".data)] :=
  (C2_reply_count cfgAllow111 upd222).2 222 rfl (by decide) (by decide)
